import Mathlib

/-!
Shallow embedding of the hyperswarm-dht RPC dispatcher and query pool
(`src/rpc/mod.rs`, `src/rpc/query/mod.rs`).

Machine integers (`u32`) are modelled as `Nat` with explicit reduction
modulo `4294967296 = 2^32` where overflow matters; checked (debug-mode)
arithmetic that can panic is modelled with `Option`.  Side effects of the
dispatcher (routing-table upserts via `add_node`, replies via
`Io::response`) are recorded as an explicit effect list, because both
collaborators are external to the dispatcher logic under scrutiny.
`wasm_timer::Instant` is modelled as `Nat` (only its total order matters).
-/

/-- Modelled from the spec: `NetworkAddress` (`std::net::SocketAddr`) is an
opaque peer address; only equality on it is used here. -/
abbrev SocketAddr := Nat

/-- A peer as seen by the dispatcher (`struct Peer` in `src/rpc/mod.rs`):
an address plus the optional referrer that told us about this node. -/
structure Peer where
  addr : SocketAddr
  referrer : Option SocketAddr
deriving DecidableEq, Repr

/-- Modelled from the spec: the peer-address encoding of the external
`PeersEncoding` codec collaborator (`peer.encode()`), a packed byte encoding
of the peer's address; the exact byte layout is owned by the codec. -/
def Peer.encode (p : Peer) : List Nat := [p.addr]

/-- The RPC command of a message (`Command` in `src/rpc/message.rs`):
`Ping`, `FindNode`, `HolePunch`, or a custom command name. -/
inductive Command where
  | ping
  | findNode
  | holePunch
  | unknown (name : String)
deriving DecidableEq, Repr

/-- Modelled from the spec: a decoded RPC message from the wire/codec
boundary: `Message { command, value, target, to, roundtrip_token, id }`.
The concrete protobuf struct lives in the external `src/rpc/message.rs`. -/
structure Message where
  command : Option Command
  value : Option (List Nat)
  target : Option (List Nat)
  to_ : Option (List Nat)
  roundtrip_token : Option (List Nat)
  id : Option (List Nat)
deriving DecidableEq, Repr

/-- Modelled from the spec: `Message::get_command` yields the message's
command, or `None` for a request lacking a command. -/
def Message.get_command (m : Message) : Option Command := m.command

/-- Modelled from the spec: `Message::valid_id` validates that the sender's
claimed identifier is well-formed (fixed 32-byte length) before trusting
it; malformed or absent identifiers yield `None`. -/
def Message.valid_id (m : Message) : Option (List Nat) :=
  match m.id with
  | some i => if i.length = 32 then some i else none
  | none => none

/-- Modelled from the spec: `Message::valid_key_bytes` validates the
message's target as a well-formed fixed-length (32-byte) key. -/
def Message.valid_key_bytes (m : Message) : Option (List Nat) :=
  match m.target with
  | some t => if t.length = 32 then some t else none
  | none => none

/-- An entry returned by the routing table's closest-peers lookup
(identifier and address), as consumed by `onfindnode`. -/
structure NodeEntry where
  id : List Nat
  addr : SocketAddr
deriving DecidableEq, Repr

/-- Modelled from the spec: the external `PeersEncoding::encode` for a
closest-peers response, a packed sequence of (identifier, address) tuples;
the exact byte layout is owned by the codec collaborator. -/
def PeersEncoding.encode (nodes : List NodeEntry) : List Nat :=
  (nodes.map fun n => n.id ++ [n.addr]).flatten

/-- `CommandError` from `src/rpc/mod.rs`. -/
inductive CommandError where
  | unknownCommand (name : String)
  | missingTarget
  | missingCommand
deriving DecidableEq, Repr

/-- `CommandResult = Result<(), CommandError>`. -/
abbrev CommandResult := Except CommandError Unit

/-- Observable side effects of the dispatcher.  `addNode` records a call to
`DHT::add_node` (whose body is unimplemented in the source; the spec says it
upserts `(id, address)` plus token and apparent external address into the
RoutingTable), `response` records a call to the external `Io::response`
with its `value` and `closer_nodes` payload arguments. -/
inductive Effect where
  | addNode (id : List Nat) (peer : Peer) (token : Option (List Nat)) (to_ : Option (List Nat))
  | response (msg : Message) (value : Option (List Nat)) (closerNodes : Option (List Nat)) (peer : Peer)
deriving DecidableEq, Repr

/-- Whether an effect is a routing-table upsert (`add_node` call). -/
def Effect.isAddNode : Effect → Bool
  | .addNode _ _ _ _ => true
  | .response _ _ _ _ => false

/-- The dispatcher state (`struct DHT`): local 32-byte id, the set of
custom command names with a registered codec (`commands: HashMap<String,
Box<dyn CommandCodec>>`, of which only the key set is consulted by the
implemented code), and the routing table's closest-peers lookup
(`kbuckets.closest`), an external collaborator modelled as a function. -/
structure DHT where
  id : List Nat
  query_id : Option (List Nat)
  ephemeral : Bool
  commands : List String
  closest : List Nat → List NodeEntry

/-- The outcome of a handler: the effects it performed, and `some` result
unless the run reached an `unimplemented!()` panic (`none`). -/
abbrev HandlerOut := List Effect × Option CommandResult

/-- `DHT::onping`: a ping whose declared value equals the local id is a
self-check answered with no reply; any other ping is answered with exactly
one reply carrying the sender's encoded externally-observed address. -/
def DHT.onping (dht : DHT) (msg : Message) (peer : Peer) : HandlerOut :=
  match msg.value with
  | some val =>
    if dht.id = val then ([], some (Except.ok ()))
    else ([Effect.response msg (some peer.encode) none peer], some (Except.ok ()))
  | none => ([Effect.response msg (some peer.encode) none peer], some (Except.ok ()))

/-- `DHT::onfindnode`: for a valid target key, reply with the encoded 20
closest known peers from the routing table; always returns `Ok(())`. -/
def DHT.onfindnode (dht : DHT) (msg : Message) (peer : Peer) : HandlerOut :=
  match msg.valid_key_bytes with
  | some key =>
    ([Effect.response msg none (some (PeersEncoding.encode ((dht.closest key).take 20))) peer],
      some (Except.ok ()))
  | none => ([], some (Except.ok ()))

/-- `DHT::onholepunch` is `unimplemented!()`. -/
def DHT.onholepunch (_dht : DHT) (_msg : Message) (_peer : Peer) : HandlerOut :=
  ([], none)

/-- `DHT::on_command`: reject a custom command without a target as
`MissingTarget`; dispatch to a registered codec by name (that code path is
`unimplemented!()` in the source), else reject as `UnknownCommand`. -/
def DHT.on_command (dht : DHT) (cmd : String) (msg : Message) (_peer : Peer) : HandlerOut :=
  if msg.target = none then ([], some (Except.error CommandError.missingTarget))
  else if cmd ∈ dht.commands then ([], none)
  else ([], some (Except.error (CommandError.unknownCommand cmd)))

/-- The command dispatch in the body of `DHT::onrequest`. -/
def DHT.dispatch (dht : DHT) (cmd : Command) (msg : Message) (peer : Peer) : HandlerOut :=
  match cmd with
  | .ping => dht.onping msg peer
  | .findNode => dht.onfindnode msg peer
  | .holePunch => dht.onholepunch msg peer
  | .unknown s => dht.on_command s msg peer

/-- `DHT::onrequest`: upsert the sender into the routing table when its id
is valid (token `None`, `to` from the message), then dispatch by command;
a request lacking a command is rejected as `MissingCommand`. -/
def DHT.onrequest (dht : DHT) (msg : Message) (peer : Peer) : HandlerOut :=
  let pre : List Effect :=
    match msg.valid_id with
    | some i => [Effect.addNode i peer none msg.to_]
    | none => []
  match msg.get_command with
  | some cmd =>
    let r := dht.dispatch cmd msg peer
    (pre ++ r.1, r.2)
  | none => (pre, some (Except.error CommandError.missingCommand))

/-- `DHT::onresponse`: upsert the sender into the routing table when its id
is valid, with the message's `roundtrip_token` and `to`; no result value. -/
def DHT.onresponse (_dht : DHT) (msg : Message) (peer : Peer) : List Effect :=
  match msg.valid_id with
  | some i => [Effect.addNode i peer msg.roundtrip_token msg.to_]
  | none => []

/-! ## Query pool, query streams and statistics (`src/rpc/query/mod.rs`) -/

/-- The `u32` modulus; counter arithmetic in `QueryStats` wraps at it. -/
def U32MOD : Nat := 4294967296

/-- Execution statistics of a query (`struct QueryStats`); the Rust field
`end` is named `end_` here because `end` is reserved in Lean. -/
structure QueryStats where
  requests : Nat
  success : Nat
  failure : Nat
  start : Option Nat
  end_ : Option Nat
deriving DecidableEq, Repr

/-- `QueryStats::empty`. -/
def QueryStats.empty : QueryStats :=
  { requests := 0, success := 0, failure := 0, start := none, end_ := none }

/-- The counter fields are in `u32` range. -/
def QueryStats.wf (s : QueryStats) : Prop :=
  s.requests < U32MOD ∧ s.success < U32MOD ∧ s.failure < U32MOD

instance (s : QueryStats) : Decidable s.wf := by
  unfold QueryStats.wf; infer_instance

/-- `QueryStats::num_requests`. -/
def QueryStats.num_requests (s : QueryStats) : Nat := s.requests

/-- `QueryStats::num_pending`, i.e. `requests - (success + failure)` in
checked `u32` arithmetic: `none` models the debug-mode panic on overflow
of the sum or underflow of the subtraction. -/
def QueryStats.num_pending (s : QueryStats) : Option Nat :=
  if U32MOD ≤ s.success + s.failure then none
  else if s.requests < s.success + s.failure then none
  else some (s.requests - (s.success + s.failure))

/-- Minimum of two optional instants, `None` the identity: the explicit
`match` in `QueryStats::merge` for the `start` field. -/
def optMin (x y : Option Nat) : Option Nat :=
  match x, y with
  | some a, some b => some (min a b)
  | none, b => b
  | a, none => a

/-- Maximum of two optional instants: `std::cmp::max` at type
`Option<Instant>`, whose derived order puts `None` below every `Some`. -/
def optMax (x y : Option Nat) : Option Nat :=
  match x, y with
  | some a, some b => some (max a b)
  | none, b => b
  | a, none => a

/-- `QueryStats::merge`: counters summed (wrapping `u32` addition), start
as minimum and end as maximum with `None` absorbing. -/
def QueryStats.merge (s other : QueryStats) : QueryStats :=
  { requests := (s.requests + other.requests) % U32MOD
    success := (s.success + other.success) % U32MOD
    failure := (s.failure + other.failure) % U32MOD
    start := optMin s.start other.start
    end_ := optMax s.end_ other.end_ }

/-- The spec's `QueryStats` invariant: `requests >= success + failure`. -/
def QueryStats.inv (s : QueryStats) : Prop :=
  s.success + s.failure ≤ s.requests

instance (s : QueryStats) : Decidable s.inv := by
  unfold QueryStats.inv; infer_instance

/-- `QueryType` of a query stream. -/
inductive QueryType where
  | query
  | update
  | queryUpdate
deriving DecidableEq, Repr

/-- `QueryType::is_query`. -/
def QueryType.is_query : QueryType → Bool
  | .query | .queryUpdate => true
  | _ => false

/-- `QueryType::is_update`. -/
def QueryType.is_update : QueryType → Bool
  | .update | .queryUpdate => true
  | _ => false

/-- Unique identifier for an active query (`QueryId(usize)`). -/
abbrev QueryId := Nat

/-- Modelled from the spec: the bootstrap peer iterator
(`BootstrapPeersIter`, external `src/rpc/query/bootstrap.rs`): a seed set
of known-good peers with the concurrency cap α. -/
structure BootstrapPeersIter where
  peers : List Peer
  alpha : Nat
deriving DecidableEq, Repr

/-- The peer selection strategies of queries (`enum QueryPeerIter`). -/
inductive QueryPeerIter where
  | bootstrap (it : BootstrapPeersIter)
  | movingCloser
  | updating
deriving DecidableEq, Repr

/-- Modelled from the spec: `QueryTable` (external `src/rpc/query/table.rs`)
tracks the authoritative ordered closest-known-peers list of a query. -/
structure QueryTable where
  local_id : List Nat
  target : List Nat
  peers : List (List Nat)
deriving DecidableEq, Repr

/-- One running query (`struct QueryStream`). -/
structure QueryStream where
  id : QueryId
  peer_iter : QueryPeerIter
  cmd : Command
  stats : QueryStats
  ty : QueryType
  inner : QueryTable
deriving DecidableEq, Repr

/-- `QueryStream::move_closer`: both branches of the `if` are empty in the
source (the state-transition statements are commented out), so the stream
is returned unchanged either way. -/
def QueryStream.move_closer (q : QueryStream) : QueryStream :=
  if q.ty.is_update then q else q

/-- A `QueryPool` owns the map of in-flight query streams keyed by id
(`FnvHashMap<QueryId, QueryStream>`, modelled as an association list) and
the monotonic id counter. -/
structure QueryPool where
  queries : List (QueryId × QueryStream)
  next_id : Nat

/-- The observable states emitted by `QueryPool::poll`
(`enum QueryPoolState`). -/
inductive QueryPoolState where
  | idle
  | waiting (stream : Option QueryStream)
  | finished (stream : QueryStream)
  | timeout (stream : QueryStream)
deriving DecidableEq, Repr

/-- `QueryPool::size`. -/
def QueryPool.size (pool : QueryPool) : Nat := pool.queries.length

/-- `QueryPool::poll`: `Idle` on an empty pool, else `Waiting(None)`; the
code after these two `return`s is unreachable. -/
def QueryPool.poll (pool : QueryPool) (_now : Nat) : QueryPoolState :=
  if pool.queries.isEmpty then QueryPoolState.idle
  else QueryPoolState.waiting none

/-! ## Concrete sample values used to instantiate the theorems -/

/-- A well-formed 32-byte identifier. -/
def id32 : List Nat := List.replicate 32 7

/-- A well-formed 32-byte target key. -/
def key32 : List Nat := List.replicate 32 3

/-- A sample peer. -/
def peerW : Peer := { addr := (5 : Nat), referrer := none }

/-- A sample dispatcher with local id `id32`, no registered custom-command
codecs, and an empty routing table. -/
def dhtW : DHT :=
  { id := id32, query_id := none, ephemeral := false, commands := []
    closest := fun _ => [] }

/-- A custom-command request without a target. -/
def msgNoTarget : Message :=
  { command := some (Command.unknown "custom"), value := none, target := none
    to_ := none, roundtrip_token := none, id := none }

/-- A custom-command request with a target present. -/
def msgCustomTarget : Message :=
  { command := some (Command.unknown "custom"), value := none, target := some [1]
    to_ := none, roundtrip_token := none, id := none }

/-- A self-ping request with a valid sender id, a round-trip token and an
apparent external address. -/
def msgC2 : Message :=
  { command := some Command.ping, value := some id32, target := none
    to_ := some [9], roundtrip_token := some [7], id := some id32 }

/-- A ping request with a malformed (1-byte) sender id. -/
def msgBadId : Message :=
  { command := some Command.ping, value := some id32, target := none
    to_ := none, roundtrip_token := none, id := some [1] }

/-- A ping request whose value equals the local id of `dhtW`. -/
def msgSelfPing : Message :=
  { command := some Command.ping, value := some id32, target := none
    to_ := none, roundtrip_token := none, id := none }

/-- A ping request whose value differs from the local id of `dhtW`. -/
def msgOtherPing : Message :=
  { command := some Command.ping, value := some [1], target := none
    to_ := none, roundtrip_token := none, id := none }

/-- A find-node request with a valid 32-byte target key. -/
def msgFind : Message :=
  { command := some Command.findNode, value := none, target := some key32
    to_ := none, roundtrip_token := none, id := none }

/-- An empty query pool. -/
def emptyPool : QueryPool := { queries := [], next_id := 0 }

/-- A sample query stream. -/
def qsW : QueryStream :=
  { id := (0 : Nat), peer_iter := QueryPeerIter.movingCloser, cmd := Command.ping
    stats := QueryStats.empty, ty := QueryType.query
    inner := { local_id := id32, target := key32, peers := [] } }

/-- A pool holding one query. -/
def onePool : QueryPool := { queries := [((0 : Nat), qsW)], next_id := 1 }

/-- Sample statistics values. -/
def statsA : QueryStats :=
  { requests := 5, success := 2, failure := 1, start := some 3, end_ := none }

/-- Sample statistics values. -/
def statsB : QueryStats :=
  { requests := 4, success := 1, failure := 3, start := none, end_ := some 9 }

/-- Sample statistics values. -/
def statsC : QueryStats :=
  { requests := 2, success := 0, failure := 0, start := some 1, end_ := some 2 }

/-! ## Helper lemmas -/

theorem optMin_comm (x y : Option Nat) : optMin x y = optMin y x := by
  cases x <;> cases y <;> simp [optMin, Nat.min_comm]

theorem optMin_assoc (x y z : Option Nat) :
    optMin (optMin x y) z = optMin x (optMin y z) := by
  cases x <;> cases y <;> cases z <;> simp [optMin, Nat.min_assoc]

theorem optMin_none_left (x : Option Nat) : optMin none x = x := by
  cases x <;> rfl

theorem optMin_none_right (x : Option Nat) : optMin x none = x := by
  cases x <;> rfl

theorem optMax_comm (x y : Option Nat) : optMax x y = optMax y x := by
  cases x <;> cases y <;> simp [optMax, Nat.max_comm]

theorem optMax_assoc (x y z : Option Nat) :
    optMax (optMax x y) z = optMax x (optMax y z) := by
  cases x <;> cases y <;> cases z <;> simp [optMax, Nat.max_assoc]

theorem optMax_none_left (x : Option Nat) : optMax none x = x := by
  cases x <;> rfl

theorem optMax_none_right (x : Option Nat) : optMax x none = x := by
  cases x <;> rfl

theorem dispatch_no_addNode (dht : DHT) (c : Command) (msg : Message) (peer : Peer) :
    ∀ e ∈ (dht.dispatch c msg peer).1, e.isAddNode = false := by
  intro e he
  cases c <;>
    simp only [DHT.dispatch, DHT.onping, DHT.onfindnode, DHT.onholepunch,
      DHT.on_command] at he
  case ping =>
    rcases hv : msg.value with _ | v
    · rw [hv] at he
      simp at he
      simp [he, Effect.isAddNode]
    · rw [hv] at he
      by_cases hid : dht.id = v
      · simp [hid] at he
      · simp [hid] at he
        simp [he, Effect.isAddNode]
  case findNode =>
    rcases hv : msg.valid_key_bytes with _ | k
    · rw [hv] at he
      simp at he
    · rw [hv] at he
      simp at he
      simp [he, Effect.isAddNode]
  case holePunch =>
    simp at he
  case unknown s =>
    by_cases htgt : msg.target = none
    · simp [htgt] at he
    · by_cases hreg : s ∈ dht.commands
      · simp [htgt, hreg] at he
      · simp [htgt, hreg] at he

/-! ## Claim theorems -/

/-- C1 (counterexample): a custom-command request with no registered codec
and no target is rejected by `onrequest` as `MissingTarget`, not as
`UnknownCommand("custom")`, so the claim fails for messages without a
target. -/
theorem onrequest_missingTarget_not_unknownCommand_cex :
    (dhtW.onrequest msgNoTarget peerW).2 = some (Except.error CommandError.missingTarget) ∧
    (some (Except.error CommandError.missingTarget) : Option CommandResult) ≠
      some (Except.error (CommandError.unknownCommand "custom")) := by
  refine ⟨rfl, ?_⟩
  simp

/-- C1 (amended): for every inbound request whose command is a custom name
with no codec registered under that name and which does carry a target,
`onrequest` (via `on_command`) returns `Err(UnknownCommand(name))`. -/
theorem onrequest_unknownCommand_of_unregistered_with_target
    (dht : DHT) (msg : Message) (peer : Peer) (name : String)
    (hcmd : msg.get_command = some (Command.unknown name))
    (hreg : name ∉ dht.commands) (htgt : msg.target ≠ none) :
    (dht.onrequest msg peer).2 =
      some (Except.error (CommandError.unknownCommand name)) := by
  simp only [DHT.onrequest, DHT.dispatch, DHT.on_command, hcmd]
  rw [if_neg htgt, if_neg hreg]

/-- C1 (witness): the amended theorem applied to a concrete unregistered
custom command carrying a target. -/
theorem onrequest_unknownCommand_witness :
    (dhtW.onrequest msgCustomTarget peerW).2 =
      some (Except.error (CommandError.unknownCommand "custom")) :=
  onrequest_unknownCommand_of_unregistered_with_target dhtW msgCustomTarget peerW
    "custom" rfl (by simp [dhtW]) (by simp [msgCustomTarget])

/-- C8: for every inbound request whose command is a custom name and whose
target field is `None`, `onrequest` returns `Err(MissingTarget)`. -/
theorem onrequest_missingTarget_of_no_target
    (dht : DHT) (msg : Message) (peer : Peer) (name : String)
    (hcmd : msg.get_command = some (Command.unknown name))
    (htgt : msg.target = none) :
    (dht.onrequest msg peer).2 = some (Except.error CommandError.missingTarget) := by
  simp only [DHT.onrequest, DHT.dispatch, DHT.on_command, hcmd]
  rw [if_pos htgt]

/-- C8 (witness): the theorem applied to a concrete custom-command request
without a target. -/
theorem onrequest_missingTarget_witness :
    (dhtW.onrequest msgNoTarget peerW).2 =
      some (Except.error CommandError.missingTarget) :=
  onrequest_missingTarget_of_no_target dhtW msgNoTarget peerW "custom" rfl rfl

/-- C2 (counterexample): on a request whose sender id is valid and which
carries `roundtrip_token = Some([7])`, the `add_node` call performed by
`onrequest` receives `None` as the token, not the message's
`roundtrip_token`. -/
theorem onrequest_addNode_token_none_cex :
    (dhtW.onrequest msgC2 peerW).1 = [Effect.addNode id32 peerW none (some [9])] ∧
    msgC2.roundtrip_token = some [7] ∧
    Effect.addNode id32 peerW none (some [9]) ≠
      Effect.addNode id32 peerW msgC2.roundtrip_token msgC2.to_ := by
  refine ⟨rfl, rfl, ?_⟩
  decide

/-- C2 (amended): for every inbound request whose sender identifier is
valid, `onrequest` calls `add_node` with the pair `(id, peer)`, token
`None` (not the message's `roundtrip_token`), and the message's `to`
field, before any further effects of command dispatch. -/
theorem onrequest_addNode_args (dht : DHT) (msg : Message) (peer : Peer)
    (i : List Nat) (h : msg.valid_id = some i) :
    ∃ rest, (dht.onrequest msg peer).1 = Effect.addNode i peer none msg.to_ :: rest := by
  simp only [DHT.onrequest, h]
  cases hc : msg.get_command with
  | none => exact ⟨[], by simp [hc]⟩
  | some c => exact ⟨(dht.dispatch c msg peer).1, by simp [hc]⟩

/-- C2 (witness): the amended theorem applied to a concrete request with a
valid sender id. -/
theorem onrequest_addNode_args_witness :
    ∃ rest, (dhtW.onrequest msgC2 peerW).1 =
      Effect.addNode id32 peerW none msgC2.to_ :: rest :=
  onrequest_addNode_args dhtW msgC2 peerW id32 rfl

/-- C9: for every inbound message whose sender identifier is malformed,
`onrequest` performs no `add_node` upsert yet still dispatches the
command, and `onresponse` performs no effect and returns normally. -/
theorem invalid_id_skips_addNode (dht : DHT) (msg : Message) (peer : Peer)
    (h : msg.valid_id = none) :
    (∀ e ∈ (dht.onrequest msg peer).1, e.isAddNode = false) ∧
    (dht.onrequest msg peer =
      match msg.get_command with
      | some c => dht.dispatch c msg peer
      | none => ([], some (Except.error CommandError.missingCommand))) ∧
    dht.onresponse msg peer = [] := by
  refine ⟨?_, ?_, ?_⟩
  · intro e he
    simp only [DHT.onrequest, h] at he
    cases hc : msg.get_command with
    | none => rw [hc] at he; simp at he
    | some c =>
      rw [hc] at he
      simp only [List.nil_append] at he
      exact dispatch_no_addNode dht c msg peer e he
  · simp only [DHT.onrequest, h]
    cases hc : msg.get_command with
    | none => simp
    | some c => simp
  · simp [DHT.onresponse, h]

/-- C9 (witness): the theorem applied to a concrete request with a 1-byte
(malformed) sender id. -/
theorem invalid_id_skips_addNode_witness :
    dhtW.onresponse msgBadId peerW = [] ∧
    dhtW.onrequest msgBadId peerW = dhtW.dispatch Command.ping msgBadId peerW :=
  ⟨(invalid_id_skips_addNode dhtW msgBadId peerW rfl).2.2,
   (invalid_id_skips_addNode dhtW msgBadId peerW rfl).2.1⟩

/-- C3: `QueryPool::poll` returns `Idle` exactly on an empty pool and
`Waiting(None)` on any non-empty pool, for every `now` instant. -/
theorem queryPool_poll_idle_iff_empty (pool : QueryPool) (now : Nat) :
    (pool.queries = [] → pool.poll now = QueryPoolState.idle) ∧
    (pool.queries ≠ [] → pool.poll now = QueryPoolState.waiting none) := by
  constructor
  · intro h
    simp [QueryPool.poll, h]
  · intro h
    simp [QueryPool.poll, h]

/-- C3 (witness): the theorem applied to the empty pool and to a pool
holding one query. -/
theorem queryPool_poll_witness :
    emptyPool.poll 0 = QueryPoolState.idle ∧
    onePool.poll 5 = QueryPoolState.waiting none :=
  ⟨(queryPool_poll_idle_iff_empty emptyPool 0).1 rfl,
   (queryPool_poll_idle_iff_empty onePool 5).2 (by simp [onePool])⟩

/-- C4: a `Ping` whose value equals the local 32-byte id returns `Ok(())`
with no reply; any other `Ping` (including one with no value) sends exactly
one reply whose payload is the sender's encoded externally-observed
address and returns `Ok(())`. -/
theorem onping_self_check_or_single_reply (dht : DHT) (msg : Message) (peer : Peer) :
    (msg.value = some dht.id → dht.onping msg peer = ([], some (Except.ok ()))) ∧
    (msg.value ≠ some dht.id →
      dht.onping msg peer =
        ([Effect.response msg (some peer.encode) none peer], some (Except.ok ()))) := by
  constructor
  · intro h
    simp [DHT.onping, h]
  · intro h
    cases hv : msg.value with
    | none => simp [DHT.onping, hv]
    | some v =>
      have hne : dht.id ≠ v := fun he => h (by rw [hv, he])
      simp [DHT.onping, hv, hne]

/-- C4 (witness): the theorem applied to a self-ping and to a ping from
another node. -/
theorem onping_witness :
    dhtW.onping msgSelfPing peerW = ([], some (Except.ok ())) ∧
    dhtW.onping msgOtherPing peerW =
      ([Effect.response msgOtherPing (some peerW.encode) none peerW],
        some (Except.ok ())) :=
  ⟨(onping_self_check_or_single_reply dhtW msgSelfPing peerW).1 rfl,
   (onping_self_check_or_single_reply dhtW msgOtherPing peerW).2 (by decide)⟩

/-- C7: for every `FindNode` request carrying a valid target key,
`onfindnode` sends exactly one reply carrying the routing table's closest
peers to that key truncated to at most 20 entries, and returns `Ok(())`. -/
theorem onfindnode_replies_closest_take20 (dht : DHT) (msg : Message)
    (peer : Peer) (key : List Nat) (h : msg.valid_key_bytes = some key) :
    dht.onfindnode msg peer =
      ([Effect.response msg none
          (some (PeersEncoding.encode ((dht.closest key).take 20))) peer],
        some (Except.ok ())) ∧
    ((dht.closest key).take 20).length ≤ 20 := by
  constructor
  · simp [DHT.onfindnode, h]
  · rw [List.length_take]
    exact Nat.min_le_left _ _

/-- C7 (witness): the theorem applied to a concrete find-node request with
a valid 32-byte target key. -/
theorem onfindnode_witness :
    dhtW.onfindnode msgFind peerW =
      ([Effect.response msgFind none
          (some (PeersEncoding.encode ((dhtW.closest key32).take 20))) peerW],
        some (Except.ok ())) ∧
    ((dhtW.closest key32).take 20).length ≤ 20 :=
  onfindnode_replies_closest_take20 dhtW msgFind peerW key32 rfl

/-- C10: `QueryStream::move_closer` leaves the query stream unchanged for
every stream (both branches of its `is_update` test are empty in the
source), so in particular no field and no state is modified. -/
theorem move_closer_id (q : QueryStream) : q.move_closer = q := by
  simp [QueryStream.move_closer]

/-- C5: `QueryStats::merge` is commutative and associative (counters summed
in wrapping `u32` arithmetic, start merged by minimum and end by maximum
with `None` as identity), `QueryStats::empty` is its two-sided identity on
in-range stats, and the requests counter of a merge is the `u32` sum of
the requests counters. -/
theorem queryStats_merge_laws (a b c : QueryStats) (ha : a.wf) :
    a.merge b = b.merge a ∧
    (a.merge b).merge c = a.merge (b.merge c) ∧
    QueryStats.empty.merge a = a ∧
    a.merge QueryStats.empty = a ∧
    (a.merge b).requests = (a.requests + b.requests) % U32MOD := by
  obtain ⟨ar, as1, af, ast, aen⟩ := a
  obtain ⟨br, bs, bf, bst, ben⟩ := b
  obtain ⟨cr, cs, cf, cst, cen⟩ := c
  simp only [QueryStats.wf, U32MOD] at ha
  obtain ⟨ha1, ha2, ha3⟩ := ha
  refine ⟨?_, ?_, ?_, ?_, rfl⟩
  · simp only [QueryStats.merge, QueryStats.mk.injEq, U32MOD]
    exact ⟨by omega, by omega, by omega, optMin_comm _ _, optMax_comm _ _⟩
  · simp only [QueryStats.merge, QueryStats.mk.injEq, U32MOD]
    exact ⟨by omega, by omega, by omega, optMin_assoc _ _ _, optMax_assoc _ _ _⟩
  · simp only [QueryStats.empty, QueryStats.merge, QueryStats.mk.injEq, U32MOD]
    exact ⟨by omega, by omega, by omega, optMin_none_left _, optMax_none_left _⟩
  · simp only [QueryStats.empty, QueryStats.merge, QueryStats.mk.injEq, U32MOD]
    exact ⟨by omega, by omega, by omega, optMin_none_right _, optMax_none_right _⟩

/-- C5 (witness): the theorem applied to concrete statistics values. -/
theorem queryStats_merge_laws_witness :
    statsA.merge statsB = statsB.merge statsA ∧
    (statsA.merge statsB).merge statsC = statsA.merge (statsB.merge statsC) ∧
    QueryStats.empty.merge statsA = statsA ∧
    statsA.merge QueryStats.empty = statsA ∧
    (statsA.merge statsB).requests = (statsA.requests + statsB.requests) % U32MOD :=
  queryStats_merge_laws statsA statsB statsC (by decide)

/-- C6: under the invariant `requests >= success + failure` (with the
requests counter in `u32` range), `num_pending` computes
`requests - (success + failure)` without underflow; the invariant holds
for `empty` and is preserved by `merge` of two invariant-satisfying values
whose exact requests sum stays in `u32` range. -/
theorem queryStats_pending_inv (s a b : QueryStats)
    (hs : s.inv) (hr : s.requests < U32MOD) (ha : a.inv) (hb : b.inv)
    (hab : a.requests + b.requests < U32MOD) :
    s.num_pending = some (s.requests - (s.success + s.failure)) ∧
    QueryStats.empty.inv ∧
    (a.merge b).inv := by
  simp only [QueryStats.inv, U32MOD] at hs ha hb hab hr ⊢
  refine ⟨?_, ?_, ?_⟩
  · simp only [QueryStats.num_pending, U32MOD]
    rw [if_neg (by omega), if_neg (by omega)]
  · simp [QueryStats.empty]
  · simp only [QueryStats.merge, U32MOD]
    omega

/-- C6 (witness): the theorem applied to concrete statistics values. -/
theorem queryStats_pending_inv_witness :
    statsA.num_pending = some (statsA.requests - (statsA.success + statsA.failure)) ∧
    QueryStats.empty.inv ∧
    (statsA.merge statsB).inv :=
  queryStats_pending_inv statsA statsA statsB (by decide) (by decide)
    (by decide) (by decide) (by decide)
